import Mathlib

/-!
Shallow embedding of the Chatbot-builder flow editor core
(`src/modules/flow-builder/flow-builder-module.tsx`, the JSON import
components, and the conditional-path property panel), together with
proofs of the specified properties of the graph store, the snapshot
history engine, import validation, the host-bridge origin policy and
the path-removal edge cascade.
-/

namespace ChatbotBuilder

/-- Canvas position of a node (`position: {x, y}`). Coordinates are modeled
as integers; no claim depends on fractional coordinates. -/
structure Pos where
  x : Int
  y : Int
deriving DecidableEq, Repr

/-- Last measured width/height of a rendered node (`node.measured`). -/
structure Dim where
  width : Int
  height : Int
deriving DecidableEq, Repr

/-- A condition reference stored on a ConditionalPath node
(`{id, condition}` from the condition store). -/
structure ConditionRef where
  id : String
  condition : String
deriving DecidableEq, Repr

/-- A case reference (`{id, value}` from the case store). -/
structure CaseRef where
  id : String
  value : String
deriving DecidableEq, Repr

/-- One path of a ConditionalPath node: `{id, case: {id, value}}`.
The source field is named `case`, a Lean keyword, hence `caseRef` here. -/
structure CasePath where
  id : String
  caseRef : CaseRef
deriving DecidableEq, Repr

/-- The `data` payload of a ConditionalPath node: `{condition, paths}`. -/
structure ConditionalPathData where
  condition : Option ConditionRef
  paths : List CasePath
deriving DecidableEq, Repr

/-- Variant-specific node payload. Start/End nodes carry `{deletable}`,
TextMessage nodes carry `{channel, message}`, ConditionalPath nodes carry
`{condition, paths}`. Imported nodes may carry an arbitrary opaque payload,
modeled by `raw`. -/
inductive NodeData where
  | flag (deletable : Bool)
  | textMessage (channel : String) (message : String)
  | conditionalPath (d : ConditionalPathData)
  | raw (tag : String)
deriving DecidableEq, Repr

/-- A React-Flow node as used by the flow builder: `id`, `type`, `position`,
`data`, optional `measured`. `type` is optional because imported documents
may omit it (the import defaults it). -/
structure Node where
  id : String
  type : Option String
  position : Pos
  data : NodeData
  measured : Option Dim
deriving DecidableEq, Repr

/-- A React-Flow edge: `id`, `source`, `target`, optional `sourceHandle`
and `targetHandle`, optional `type`. -/
structure Edge where
  id : String
  source : String
  target : String
  sourceHandle : Option String
  targetHandle : Option String
  type : Option String
deriving DecidableEq, Repr

/-- A full graph state: the nodes and edges lists of the graph store,
also the shape of one history snapshot (`{nodes, edges}`). -/
structure Snapshot where
  nodes : List Node
  edges : List Edge
deriving DecidableEq, Repr

/-! ## History engine

State of the undo/redo machinery of `FlowBuilderModule`:
`historyRef.current` (the snapshot list), `historyIndexRef.current`
(the cursor, an integer starting at -1), the `canUndoState` /
`canRedoState` flags, `saveTimeoutRef` (whether a debounced save is
pending; the timer captures the graph at fire time, so no payload is
stored), and `isRestoringRef`. -/

/-- Combined state of the graph store and the history engine. -/
structure HistoryState where
  graph : Snapshot
  history : List Snapshot
  historyIndex : Int
  canUndo : Bool
  canRedo : Bool
  pendingSave : Bool
  isRestoring : Bool
deriving DecidableEq, Repr

/-- `const maxHistorySize = 50` — history depth bound. -/
def maxHistorySize : Nat := 50

/-- The component state before the history-initialization effect has run:
empty history, cursor -1, no pending timer, flags false. -/
def initialHistoryState (g : Snapshot) : HistoryState :=
  { graph := g, history := [], historyIndex := -1,
    canUndo := false, canRedo := false,
    pendingSave := false, isRestoring := false }

/-- The history-initialization effect: once nodes are loaded
(`nodes.length > 0` and `initialNodes.length > 0 || initialEdges.length > 0`),
seed the history with the current graph as the single snapshot at cursor 0
and clear both availability flags. -/
def initializeHistory (s : HistoryState) : HistoryState :=
  if s.graph.nodes.length > 0 then
    if s.graph.nodes.length > 0 || s.graph.edges.length > 0 then
      { s with history := [s.graph], historyIndex := 0,
               canUndo := false, canRedo := false }
    else s
  else s

/-- `saveToHistory`: bail out while restoring; otherwise clear any pending
debounce timer and schedule a new one (the snapshot itself is captured
when the timer fires, see `saveTimerFire`). -/
def saveToHistory (s : HistoryState) : HistoryState :=
  if s.isRestoring then s
  else { s with pendingSave := true }

/-- The body of the debounced `setTimeout` callback inside `saveToHistory`:
capture the current graph, truncate the snapshots after the cursor, append
the capture, move the cursor to the new last index, evict the oldest
snapshot (decrementing the cursor) when the bound is exceeded, and
recompute the availability flags. -/
def saveTimerFire (s : HistoryState) : HistoryState :=
  if s.pendingSave then
    if (s.history.take (s.historyIndex + 1).toNat ++ [s.graph]).length > maxHistorySize then
      { s with
        history := (s.history.take (s.historyIndex + 1).toNat ++ [s.graph]).drop 1,
        historyIndex :=
          ((s.history.take (s.historyIndex + 1).toNat ++ [s.graph]).length : Int) - 1 - 1,
        canUndo :=
          decide (0 < ((s.history.take (s.historyIndex + 1).toNat ++ [s.graph]).length : Int) - 1 - 1),
        canRedo := false, pendingSave := false }
    else
      { s with
        history := s.history.take (s.historyIndex + 1).toNat ++ [s.graph],
        historyIndex :=
          ((s.history.take (s.historyIndex + 1).toNat ++ [s.graph]).length : Int) - 1,
        canUndo :=
          decide (0 < ((s.history.take (s.historyIndex + 1).toNat ++ [s.graph]).length : Int) - 1),
        canRedo := false, pendingSave := false }
  else s

/-- `undo`: when the cursor is positive, decrement it and restore the
snapshot at the new cursor; recompute the flags (`canRedo` is set to true
unconditionally). An out-of-range access — impossible in reachable states,
see `history_invariant` — is modeled as leaving the graph unchanged.
`isRestoringRef` is set during the body and reset before returning. -/
def undo (s : HistoryState) : HistoryState :=
  if 0 < s.historyIndex then
    { s with
      historyIndex := s.historyIndex - 1,
      graph := (s.history[(s.historyIndex - 1).toNat]?).getD s.graph,
      canUndo := decide (0 < s.historyIndex - 1),
      canRedo := true,
      isRestoring := false }
  else s

/-- `redo`: when the cursor is below the last index, increment it and
restore the snapshot at the new cursor; recompute both flags. -/
def redo (s : HistoryState) : HistoryState :=
  if s.historyIndex < (s.history.length : Int) - 1 then
    { s with
      historyIndex := s.historyIndex + 1,
      graph := (s.history[(s.historyIndex + 1).toNat]?).getD s.graph,
      canUndo := decide (0 < s.historyIndex + 1),
      canRedo := decide (s.historyIndex + 1 < (s.history.length : Int) - 1),
      isRestoring := false }
  else s

/-- The wrapped `setNodes`: schedule a history save, then replace the
nodes list. -/
def setNodes (ns : List Node) (s : HistoryState) : HistoryState :=
  let s1 := saveToHistory s
  { s1 with graph := { s1.graph with nodes := ns } }

/-- The wrapped `setEdges`: schedule a history save, then replace the
edges list. -/
def setEdges (es : List Edge) (s : HistoryState) : HistoryState :=
  let s1 := saveToHistory s
  { s1 with graph := { s1.graph with edges := es } }

/-! ## Node / edge change batches

`handleNodesChangeWithHistory` / `handleEdgesChangeWithHistory` receive
batches of React-Flow changes; a batch containing an `add`, `remove` or
`replace` change triggers `saveToHistory` before the changes are applied. -/

/-- A React-Flow node change. `add` carries the new node, `remove` the id,
`replace` the id and replacement, `position` and `dimensions` are the
cosmetic drag/measure updates, `select` toggles selection. -/
inductive NodeChange where
  | add (item : Node)
  | remove (id : String)
  | replace (id : String) (item : Node)
  | position (id : String) (pos : Pos)
  | dimensions (id : String) (dim : Dim)
  | select (id : String) (selected : Bool)
deriving DecidableEq, Repr

/-- The significance test of `handleNodesChangeWithHistory`:
`change.type === "add" || change.type === "remove" || change.type === "replace"`. -/
def NodeChange.isSignificant : NodeChange → Bool
  | .add _ => true
  | .remove _ => true
  | .replace _ _ => true
  | _ => false

/-- Application of one node change to the nodes list (React-Flow
`applyNodeChanges` semantics for the modeled fields; selection is not a
modeled node field, so `select` is the identity). -/
def applyNodeChange : NodeChange → List Node → List Node
  | .add item, ns => ns ++ [item]
  | .remove i, ns => ns.filter (fun n => n.id != i)
  | .replace i item, ns => ns.map (fun n => if n.id = i then item else n)
  | .position i p, ns => ns.map (fun n => if n.id = i then { n with position := p } else n)
  | .dimensions i d, ns => ns.map (fun n => if n.id = i then { n with measured := some d } else n)
  | .select _ _, ns => ns

/-- Application of a whole batch of node changes, in order. -/
def applyNodeChanges (cs : List NodeChange) (ns : List Node) : List Node :=
  cs.foldl (fun acc c => applyNodeChange c acc) ns

/-- `handleNodesChange`: `onNodesChange(changes)` applied to the graph.
The subsequent auto-adjust calls for `dimensions`/`add` changes only
re-position already-present nodes and are outside the claims modeled here. -/
def handleNodesChange (cs : List NodeChange) (s : HistoryState) : HistoryState :=
  { s with graph := { s.graph with nodes := applyNodeChanges cs s.graph.nodes } }

/-- `handleNodesChangeWithHistory`: call `saveToHistory` when the batch
contains a significant change (`hasSignificantChanges`), then apply the
changes. -/
def handleNodesChangeWithHistory (cs : List NodeChange) (s : HistoryState) : HistoryState :=
  handleNodesChange cs (if cs.any NodeChange.isSignificant then saveToHistory s else s)

/-- A React-Flow edge change. -/
inductive EdgeChange where
  | add (item : Edge)
  | remove (id : String)
  | replace (id : String) (item : Edge)
  | select (id : String) (selected : Bool)
deriving DecidableEq, Repr

/-- The significance test of `handleEdgesChangeWithHistory`. -/
def EdgeChange.isSignificant : EdgeChange → Bool
  | .add _ => true
  | .remove _ => true
  | .replace _ _ => true
  | _ => false

/-- Application of one edge change to the edges list. -/
def applyEdgeChange : EdgeChange → List Edge → List Edge
  | .add item, es => es ++ [item]
  | .remove i, es => es.filter (fun e => e.id != i)
  | .replace i item, es => es.map (fun e => if e.id = i then item else e)
  | .select _ _, es => es

/-- Application of a whole batch of edge changes, in order. -/
def applyEdgeChanges (cs : List EdgeChange) (es : List Edge) : List Edge :=
  cs.foldl (fun acc c => applyEdgeChange c acc) es

/-- `onEdgesChange(changes)` applied to the graph. -/
def handleEdgesChange (cs : List EdgeChange) (s : HistoryState) : HistoryState :=
  { s with graph := { s.graph with edges := applyEdgeChanges cs s.graph.edges } }

/-- `handleEdgesChangeWithHistory`: call `saveToHistory` when the batch
contains a significant change (`hasSignificantChanges`), then apply the
changes via `onEdgesChange`. -/
def handleEdgesChangeWithHistory (cs : List EdgeChange) (s : HistoryState) : HistoryState :=
  handleEdgesChange cs (if cs.any EdgeChange.isSignificant then saveToHistory s else s)

/-- `onNodeDragStop` handler: `saveToHistory()` then `autoAdjustNode(node)`;
auto-adjust only re-positions nodes and is outside the modeled claims. -/
def onNodeDragStop (s : HistoryState) : HistoryState :=
  saveToHistory s

/-! ## Reachable history states

Every entry point of the component that touches the history state:
mount, history initialization, scheduling and firing of the debounced
save, undo/redo, the wrapped setters, the change handlers with history,
drag stop, the internal setters (used by message loading and SVG export,
which bypass the history wrapper), and the unmount cleanup that clears a
pending timer. -/

/-- The states the history engine can reach through any sequence of the
component's operations. -/
inductive Reachable : HistoryState → Prop
  | start (g : Snapshot) : Reachable (initialHistoryState g)
  | init {s} : Reachable s → Reachable (initializeHistory s)
  | save {s} : Reachable s → Reachable (saveToHistory s)
  | fire {s} : Reachable s → Reachable (saveTimerFire s)
  | undoStep {s} : Reachable s → Reachable (undo s)
  | redoStep {s} : Reachable s → Reachable (redo s)
  | setNodesStep {s} (ns : List Node) : Reachable s → Reachable (setNodes ns s)
  | setEdgesStep {s} (es : List Edge) : Reachable s → Reachable (setEdges es s)
  | nodesChange {s} (cs : List NodeChange) :
      Reachable s → Reachable (handleNodesChangeWithHistory cs s)
  | edgesChange {s} (cs : List EdgeChange) :
      Reachable s → Reachable (handleEdgesChangeWithHistory cs s)
  | dragStop {s} : Reachable s → Reachable (onNodeDragStop s)
  | internalSet {s} (g : Snapshot) : Reachable s → Reachable { s with graph := g }
  | clearTimer {s} : Reachable s → Reachable { s with pendingSave := false }

/-- The structural invariant of the history engine: the snapshot list is
bounded by `maxHistorySize`, the cursor is a valid index (-1 only while
the history is still empty), the availability flags agree with the cursor
position, and the restore guard is clear between operations. -/
def HistoryInv (s : HistoryState) : Prop :=
  s.history.length ≤ maxHistorySize ∧
  -1 ≤ s.historyIndex ∧
  s.historyIndex < (s.history.length : Int) ∧
  (s.historyIndex = -1 → s.history = []) ∧
  s.canUndo = decide (0 < s.historyIndex) ∧
  s.canRedo = decide (s.historyIndex < (s.history.length : Int) - 1) ∧
  s.isRestoring = false

/-! ## JSON import (`diagram-json-buttons.tsx`)

The sidebar and navigation-bar upload handlers parse the selected file as
JSON and check `Array.isArray(data.nodes) && Array.isArray(data.edges)`.
The parse outcome is modeled as already-structured data: `parseError` for
a `JSON.parse` throw, and `none` for a `nodes`/`edges` field that is
missing or not an array. -/

/-- JavaScript `a || b` for a string-valued `a` that may be absent:
`none` and the empty string (both falsy) yield the default. -/
def jsOrString : Option String → String → String
  | some s, d => if s = "" then d else s
  | none, d => d

/-- The parse outcome of an uploaded document. -/
inductive ParsedUpload where
  | parseError
  | parsed (nodes : Option (List Node)) (edges : Option (List Edge))
deriving DecidableEq, Repr

/-- User-visible notices raised by the upload handlers (`alert` calls). -/
inductive UploadAlert where
  | parseFailed
  | invalidFormat
  | skippedEdges (count : Nat)
deriving DecidableEq, Repr

/-- The sanitization pipeline of the sidebar `handleUpload`: default each
node `type` to "default", project each edge to `{id, source, target,
type}` (defaulting `type` to "deletable"), keep only edges whose
`source` and `target` are both among the imported node ids, and count the
dropped edges. The source collects node ids into a `Set`; membership in
that set is list membership here. `edge.id` with a falsy fallback only differs from
`edge.id` when the id is absent, which is modeled as the empty string. -/
def sidebarImport (ns : List Node) (es : List Edge) :
    List Node × List Edge × Nat :=
  (ns.map fun n => { n with type := some (jsOrString n.type "default") },
   ((es.map fun e =>
      { id := e.id, source := e.source, target := e.target,
        sourceHandle := none, targetHandle := none,
        type := some (jsOrString e.type "deletable") : Edge }).filter fun e =>
        (ns.map fun n => n.id).contains e.source &&
        (ns.map fun n => n.id).contains e.target),
   (es.map fun e =>
      { id := e.id, source := e.source, target := e.target,
        sourceHandle := none, targetHandle := none,
        type := some (jsOrString e.type "deletable") : Edge }).countP fun e =>
        !((ns.map fun n => n.id).contains e.source &&
          (ns.map fun n => n.id).contains e.target))

/-- The sidebar `handleUpload` applied to the graph store: reject the
whole document when parsing failed or `nodes`/`edges` is not an array,
otherwise replace nodes and edges with the sanitized import and alert the
skipped-edge count when positive. -/
def sidebarHandleUpload (doc : ParsedUpload) (st : Snapshot) :
    Snapshot × List UploadAlert :=
  match doc with
  | .parseError => (st, [.parseFailed])
  | .parsed (some ns) (some es) =>
      (⟨(sidebarImport ns es).1, (sidebarImport ns es).2.1⟩,
       if (sidebarImport ns es).2.2 > 0
         then [.skippedEdges (sidebarImport ns es).2.2] else [])
  | .parsed _ _ => (st, [.invalidFormat])

/-- The navigation-bar `handleUpload`: same rejection conditions, but a
valid document replaces nodes and edges verbatim. -/
def navHandleUpload (doc : ParsedUpload) (st : Snapshot) :
    Snapshot × List UploadAlert :=
  match doc with
  | .parseError => (st, [.parseFailed])
  | .parsed (some ns) (some es) => (⟨ns, es⟩, [])
  | .parsed _ _ => (st, [.invalidFormat])

/-! ## Host bridge (`handleMessage` in `flow-builder-module.tsx`) -/

/-- The allow-list of expected parent origins. -/
def allowedOrigins : List String :=
  ["http://localhost:5173", "http://localhost:3000", "https://yourdomain.com"]

/-- Outcome of the payload-parsing chain
(`typeof payload === "string" ? JSON.parse(payload) : payload` followed by
`JSON.parse(diagramdata.data.content)`): either some step threw, or it
produced a document whose `nodes`/`edges` are arrays (`some`) or
missing/not arrays (`none`). All parsing happens before any store write. -/
inductive MessagePayload where
  | parseFail (err : String)
  | ok (nodes : Option (List Node)) (edges : Option (List Edge))
deriving DecidableEq, Repr

/-- An inbound `event.data` value: a `type` tag and the payload. -/
structure MessageData where
  type : String
  payload : MessagePayload
deriving DecidableEq, Repr

/-- Messages posted back to the parent window. -/
inductive OutboundMessage where
  | ready
  | dataLoaded (success : Bool)
deriving DecidableEq, Repr

/-- The `handleMessage` listener: discard (log only) any event whose
origin is not allow-listed; otherwise, for a `loadData` message, load the
nodes and edges arrays that are present and reply `dataLoaded` with
`success: true`, or reply `success: false` when the payload parse threw.
Non-`loadData` messages (including `event.data == null`) are ignored. -/
def handleMessage (origin : String) (data : Option MessageData) (st : Snapshot) :
    Snapshot × List OutboundMessage :=
  if !(allowedOrigins.contains origin) then (st, [])
  else
    match data with
    | some d =>
        if d.type = "loadData" then
          match d.payload with
          | .parseFail _ => (st, [.dataLoaded false])
          | .ok nodes edges =>
              (⟨(match nodes with | some ns => ns | none => st.nodes),
                (match edges with | some es => es | none => st.edges)⟩,
               [.dataLoaded true])
        else (st, [])
    | none => (st, [])

/-! ## Conditional-path property panel (`handleRemovePath`) -/

/-- `handleRemovePath(pathId)`: remove the path with the given id from the
node's `paths`, and remove every edge whose `sourceHandle` equals the
removed path's id (`edge.sourceHandle !== pathId` keeps edges with no
`sourceHandle`). -/
def handleRemovePath (pathId : String) (data : ConditionalPathData)
    (edges : List Edge) : ConditionalPathData × List Edge :=
  ({ data with paths := data.paths.filter fun p => p.id != pathId },
   edges.filter fun e => e.sourceHandle != some pathId)

/-! ## Concrete sample states (used by the witnesses) -/

/-- A start node like the default one created on mount. -/
def sampleStart : Node :=
  { id := "start-1", type := some "start", position := ⟨100, 100⟩,
    data := .flag false, measured := none }

/-- An end node like the default one created on mount. -/
def sampleEnd : Node :=
  { id := "end-1", type := some "end", position := ⟨400, 100⟩,
    data := .flag false, measured := none }

/-- The default edge connecting start to end. -/
def sampleEdge : Edge :=
  { id := "edge-1", source := "start-1", target := "end-1",
    sourceHandle := none, targetHandle := none, type := some "deletable" }

/-- The default graph: start and end connected. -/
def sampleSnapshot : Snapshot := ⟨[sampleStart, sampleEnd], [sampleEdge]⟩

/-- A second graph used as the mutated state in witnesses. -/
def sampleSnapshotB : Snapshot := ⟨[sampleStart], []⟩

/-- The history state right after mount and history initialization. -/
def sampleState : HistoryState :=
  initializeHistory (initialHistoryState sampleSnapshot)

/-- A text-message node used in concrete change batches. -/
def sampleTextNode : Node :=
  { id := "node-3", type := some "text-message", position := ⟨250, 250⟩,
    data := .textMessage "sms" "Hello", measured := none }

/-- Imported node `{id: "a"}` (no type). -/
def importNodeA : Node :=
  { id := "a", type := none, position := ⟨0, 0⟩, data := .raw "", measured := none }

/-- Imported node `{id: "b"}` (no type). -/
def importNodeB : Node :=
  { id := "b", type := none, position := ⟨0, 80⟩, data := .raw "", measured := none }

/-- Imported edge `a -> b`. -/
def importEdgeAB : Edge :=
  { id := "e1", source := "a", target := "b",
    sourceHandle := none, targetHandle := none, type := none }

/-- Imported edge `a -> missing` whose target is not among the nodes. -/
def importEdgeAMissing : Edge :=
  { id := "e2", source := "a", target := "missing",
    sourceHandle := none, targetHandle := none, type := none }

/-- A conditional path whose case is "yes". -/
def samplePath1 : CasePath := ⟨"p1", ⟨"case-1", "yes"⟩⟩

/-- A conditional path whose case is "no". -/
def samplePath2 : CasePath := ⟨"p2", ⟨"case-2", "no"⟩⟩

/-- ConditionalPath node data with two paths. -/
def sampleCondData : ConditionalPathData :=
  ⟨some ⟨"cond-1", "x > 0"⟩, [samplePath1, samplePath2]⟩

/-- An edge attached to the handle of path `p1`. -/
def edgeFromP1 : Edge :=
  { id := "ep1", source := "cond", target := "t1",
    sourceHandle := some "p1", targetHandle := none, type := some "deletable" }

/-- An edge attached to the handle of path `p2`. -/
def edgeFromP2 : Edge :=
  { id := "ep2", source := "cond", target := "t2",
    sourceHandle := some "p2", targetHandle := none, type := some "deletable" }

/-! ### Field-preservation lemmas -/

@[simp] theorem saveToHistory_history (s : HistoryState) :
    (saveToHistory s).history = s.history := by
  unfold saveToHistory; split <;> rfl

@[simp] theorem saveToHistory_historyIndex (s : HistoryState) :
    (saveToHistory s).historyIndex = s.historyIndex := by
  unfold saveToHistory; split <;> rfl

@[simp] theorem saveToHistory_canUndo (s : HistoryState) :
    (saveToHistory s).canUndo = s.canUndo := by
  unfold saveToHistory; split <;> rfl

@[simp] theorem saveToHistory_canRedo (s : HistoryState) :
    (saveToHistory s).canRedo = s.canRedo := by
  unfold saveToHistory; split <;> rfl

@[simp] theorem saveToHistory_isRestoring (s : HistoryState) :
    (saveToHistory s).isRestoring = s.isRestoring := by
  unfold saveToHistory; split <;> rfl

@[simp] theorem saveToHistory_graph (s : HistoryState) :
    (saveToHistory s).graph = s.graph := by
  unfold saveToHistory; split <;> rfl

theorem saveToHistory_pendingSave (s : HistoryState) (h : s.isRestoring = false) :
    (saveToHistory s).pendingSave = true := by
  unfold saveToHistory; simp [h]

/-- A state agreeing with an invariant-satisfying state on every
invariant-relevant field satisfies the invariant. -/
theorem inv_of_fields {s t : HistoryState} (h : HistoryInv s)
    (hh : t.history = s.history) (hi : t.historyIndex = s.historyIndex)
    (hu : t.canUndo = s.canUndo) (hr : t.canRedo = s.canRedo)
    (hg : t.isRestoring = s.isRestoring) : HistoryInv t := by
  obtain ⟨h1, h2, h3, h4, h5, h6, h7⟩ := h
  exact ⟨by rw [hh]; exact h1, by rw [hi]; exact h2,
    by rw [hi, hh]; exact h3, by rw [hi, hh]; exact h4,
    by rw [hu, hi]; exact h5, by rw [hr, hi, hh]; exact h6,
    by rw [hg]; exact h7⟩

/-! ### Invariant preservation -/

theorem inv_initial (g : Snapshot) : HistoryInv (initialHistoryState g) := by
  simp [HistoryInv, initialHistoryState, maxHistorySize]

theorem inv_init {s : HistoryState} (h : HistoryInv s) :
    HistoryInv (initializeHistory s) := by
  obtain ⟨h1, h2, h3, h4, h5, h6, h7⟩ := h
  unfold initializeHistory
  split
  · split
    · exact ⟨by simp [maxHistorySize], by simp, by simp, by simp,
        by simp, by simp, h7⟩
    · exact ⟨h1, h2, h3, h4, h5, h6, h7⟩
  · exact ⟨h1, h2, h3, h4, h5, h6, h7⟩

theorem inv_save {s : HistoryState} (h : HistoryInv s) :
    HistoryInv (saveToHistory s) :=
  inv_of_fields h (by simp) (by simp) (by simp) (by simp) (by simp)

theorem inv_fire {s : HistoryState} (h : HistoryInv s) :
    HistoryInv (saveTimerFire s) := by
  obtain ⟨h1, h2, h3, h4, h5, h6, h7⟩ := h
  have hTle : (s.history.take (s.historyIndex + 1).toNat).length ≤ s.history.length := by
    rw [List.length_take]; omega
  unfold saveTimerFire
  split
  case isFalse => exact ⟨h1, h2, h3, h4, h5, h6, h7⟩
  case isTrue hp =>
    split
    case isTrue hb =>
      refine ⟨?_, ?_, ?_, ?_, rfl, ?_, h7⟩
      · dsimp only
        simp only [List.length_drop, List.length_append, List.length_singleton]
        omega
      · dsimp only
        simp only [List.length_append, List.length_singleton] at hb ⊢
        omega
      · dsimp only
        simp only [List.length_drop, List.length_append, List.length_singleton] at hb ⊢
        omega
      · intro hc
        exfalso
        simp only [List.length_append, List.length_singleton] at hb hc
        unfold maxHistorySize at hb
        omega
      · dsimp only
        rw [eq_comm, decide_eq_false_iff_not]
        simp only [List.length_drop, List.length_append, List.length_singleton]
        omega
    case isFalse hb =>
      refine ⟨?_, ?_, ?_, ?_, rfl, ?_, h7⟩
      · dsimp only
        simp only [List.length_append, List.length_singleton] at hb ⊢
        omega
      · dsimp only
        simp only [List.length_append, List.length_singleton]
        omega
      · dsimp only
        simp only [List.length_append, List.length_singleton]
        omega
      · intro hc
        exfalso
        simp only [List.length_append, List.length_singleton] at hc
        omega
      · dsimp only
        rw [eq_comm, decide_eq_false_iff_not]
        simp only [List.length_append, List.length_singleton]
        omega

theorem inv_undo {s : HistoryState} (h : HistoryInv s) : HistoryInv (undo s) := by
  obtain ⟨h1, h2, h3, h4, h5, h6, h7⟩ := h
  unfold undo
  split
  case isTrue hpos =>
    refine ⟨h1, ?_, ?_, ?_, rfl, ?_, rfl⟩
    · dsimp only; omega
    · dsimp only; omega
    · intro hc; exfalso; dsimp only at hc; omega
    · dsimp only; rw [eq_comm, decide_eq_true_eq]; omega
  case isFalse => exact ⟨h1, h2, h3, h4, h5, h6, h7⟩

theorem inv_redo {s : HistoryState} (h : HistoryInv s) : HistoryInv (redo s) := by
  obtain ⟨h1, h2, h3, h4, h5, h6, h7⟩ := h
  unfold redo
  split
  case isTrue hlt =>
    refine ⟨h1, ?_, ?_, ?_, rfl, rfl, rfl⟩
    · dsimp only; omega
    · dsimp only; omega
    · intro hc; exfalso; dsimp only at hc; omega
  case isFalse => exact ⟨h1, h2, h3, h4, h5, h6, h7⟩

theorem inv_setNodes {s : HistoryState} (ns : List Node) (h : HistoryInv s) :
    HistoryInv (setNodes ns s) :=
  inv_of_fields h (by simp [setNodes]) (by simp [setNodes]) (by simp [setNodes])
    (by simp [setNodes]) (by simp [setNodes])

theorem inv_setEdges {s : HistoryState} (es : List Edge) (h : HistoryInv s) :
    HistoryInv (setEdges es s) :=
  inv_of_fields h (by simp [setEdges]) (by simp [setEdges]) (by simp [setEdges])
    (by simp [setEdges]) (by simp [setEdges])

theorem inv_nodesChange {s : HistoryState} (cs : List NodeChange) (h : HistoryInv s) :
    HistoryInv (handleNodesChangeWithHistory cs s) := by
  refine inv_of_fields h ?_ ?_ ?_ ?_ ?_ <;>
    · unfold handleNodesChangeWithHistory handleNodesChange
      split <;> simp

theorem inv_edgesChange {s : HistoryState} (cs : List EdgeChange) (h : HistoryInv s) :
    HistoryInv (handleEdgesChangeWithHistory cs s) := by
  refine inv_of_fields h ?_ ?_ ?_ ?_ ?_ <;>
    · unfold handleEdgesChangeWithHistory handleEdgesChange
      split <;> simp

/-- Every reachable state of the history engine satisfies the structural
invariant `HistoryInv`. -/
theorem history_invariant {s : HistoryState} (hs : Reachable s) : HistoryInv s := by
  induction hs with
  | start g => exact inv_initial g
  | init _ ih => exact inv_init ih
  | save _ ih => exact inv_save ih
  | fire _ ih => exact inv_fire ih
  | undoStep _ ih => exact inv_undo ih
  | redoStep _ ih => exact inv_redo ih
  | setNodesStep ns _ ih => exact inv_setNodes ns ih
  | setEdgesStep es _ ih => exact inv_setEdges es ih
  | nodesChange cs _ ih => exact inv_nodesChange cs ih
  | edgesChange cs _ ih => exact inv_edgesChange cs ih
  | dragStop _ ih => exact inv_save ih
  | internalSet g _ ih => exact inv_of_fields ih rfl rfl rfl rfl rfl
  | clearTimer _ ih => exact inv_of_fields ih rfl rfl rfl rfl rfl

/-! ### Computation lemmas for undo/redo and the debounced save -/

@[simp] theorem setNodes_history (ns : List Node) (s : HistoryState) :
    (setNodes ns s).history = s.history := by
  simp [setNodes]

@[simp] theorem setEdges_history (es : List Edge) (s : HistoryState) :
    (setEdges es s).history = s.history := by
  simp [setEdges]

/-- A mutation through the wrapped setters replaces the graph and leaves a
debounced save pending (outside a restore). -/
theorem mutate_state (s : HistoryState) (ns : List Node) (es : List Edge)
    (hR : s.isRestoring = false) :
    setEdges es (setNodes ns s) =
      { s with graph := ⟨ns, es⟩, pendingSave := true } := by
  simp [setNodes, setEdges, saveToHistory, hR]

theorem undo_graph_eq {s : HistoryState} {A : Snapshot} (hpos : 0 < s.historyIndex)
    (hA : s.history[(s.historyIndex - 1).toNat]? = some A) :
    (undo s).graph = A := by
  unfold undo
  rw [if_pos hpos]
  dsimp only
  rw [hA]
  rfl

theorem undo_history_of_pos {s : HistoryState} (hpos : 0 < s.historyIndex) :
    (undo s).history = s.history := by
  unfold undo; rw [if_pos hpos]

theorem undo_historyIndex_of_pos {s : HistoryState} (hpos : 0 < s.historyIndex) :
    (undo s).historyIndex = s.historyIndex - 1 := by
  unfold undo; rw [if_pos hpos]

theorem redo_graph_eq {s : HistoryState} {B : Snapshot}
    (hlt : s.historyIndex < (s.history.length : Int) - 1)
    (hB : s.history[(s.historyIndex + 1).toNat]? = some B) :
    (redo s).graph = B := by
  unfold redo
  rw [if_pos hlt]
  dsimp only
  rw [hB]
  rfl

/-- Undo followed by redo on a state whose cursor sits on the last of two
known consecutive snapshots restores them in turn. -/
theorem undo_redo_last_two {t : HistoryState} {A B : Snapshot} {n : Nat}
    (hlen : t.history.length = n + 2)
    (hidx : t.historyIndex = (n : Int) + 1)
    (hA : t.history[n]? = some A)
    (hB : t.history[n + 1]? = some B) :
    (undo t).graph = A ∧ (redo (undo t)).graph = B := by
  have hpos : 0 < t.historyIndex := by rw [hidx]; omega
  constructor
  · apply undo_graph_eq hpos
    have harith : (t.historyIndex - 1).toNat = n := by rw [hidx]; omega
    rw [harith]; exact hA
  · apply redo_graph_eq
    · rw [undo_historyIndex_of_pos hpos, undo_history_of_pos hpos, hidx, hlen]
      push_cast; omega
    · rw [undo_historyIndex_of_pos hpos, undo_history_of_pos hpos, hidx]
      have harith : ((n : Int) + 1 - 1 + 1).toNat = n + 1 := by omega
      rw [harith]; exact hB

/-- C1. History round-trip: with the history holding a checkpoint of `A`
at the cursor, mutating the graph to `B` through the wrapped setters and
letting the debounced checkpoint of `B` fire, `undo()` restores the graph
(nodes and edges) to `A`, and a subsequent `redo()` restores it to `B`. -/
theorem history_round_trip (s : HistoryState) (A B : Snapshot)
    (hR : s.isRestoring = false) (h0 : 0 ≤ s.historyIndex)
    (hA : s.history[s.historyIndex.toNat]? = some A) :
    (undo (saveTimerFire (setEdges B.edges (setNodes B.nodes s)))).graph = A ∧
    (redo (undo (saveTimerFire (setEdges B.edges (setNodes B.nodes s))))).graph = B := by
  rw [mutate_state s B.nodes B.edges hR]
  set i := s.historyIndex.toNat with hidef
  have hi : s.historyIndex = (i : Int) := (Int.toNat_of_nonneg h0).symm
  have hiL : i < s.history.length := by
    by_contra hcon
    push_neg at hcon
    rw [List.getElem?_eq_none hcon] at hA
    cases hA
  have hTlen : (s.history.take (i + 1)).length = i + 1 := by
    rw [List.length_take]; omega
  unfold saveTimerFire
  dsimp only
  rw [if_pos rfl, hi]
  have ht1 : ((i : Int) + 1).toNat = i + 1 := by omega
  rw [ht1]
  split
  case isTrue hb =>
    rw [List.length_append, List.length_singleton, hTlen] at hb
    unfold maxHistorySize at hb
    refine undo_redo_last_two (n := i - 1) ?_ ?_ ?_ ?_
    · dsimp only
      rw [List.length_drop, List.length_append, List.length_singleton, hTlen]
      omega
    · dsimp only
      rw [List.length_append, List.length_singleton, hTlen]
      push_cast
      omega
    · dsimp only
      rw [List.drop_append_of_le_length (by rw [hTlen]; omega)]
      rw [List.getElem?_append_left (by rw [List.length_drop, hTlen]; omega)]
      rw [List.getElem?_drop]
      have harith : 1 + (i - 1) = i := by omega
      rw [harith, List.getElem?_take_of_lt (by omega)]
      exact hA
    · dsimp only
      rw [List.drop_append_of_le_length (by rw [hTlen]; omega)]
      rw [List.getElem?_append_right (by rw [List.length_drop, hTlen]; omega)]
      have harith : i - 1 + 1 - ((s.history.take (i + 1)).drop 1).length = 0 := by
        rw [List.length_drop, hTlen]; omega
      rw [harith]
      rfl
  case isFalse hb =>
    refine undo_redo_last_two (n := i) ?_ ?_ ?_ ?_
    · dsimp only
      rw [List.length_append, List.length_singleton, hTlen]
    · dsimp only
      rw [List.length_append, List.length_singleton, hTlen]
      push_cast
      omega
    · dsimp only
      rw [List.getElem?_append_left (by rw [hTlen]; omega)]
      rw [List.getElem?_take_of_lt (by omega)]
      exact hA
    · dsimp only
      rw [List.getElem?_append_right hTlen.le]
      have harith : i + 1 - (s.history.take (i + 1)).length = 0 := by
        rw [hTlen]; omega
      rw [harith]
      rfl

/-- C1 witness: the round trip at the default graph, mutated to
`sampleSnapshotB`. -/
theorem history_round_trip_witness :
    sampleState.isRestoring = false ∧ 0 ≤ sampleState.historyIndex ∧
    sampleState.history[sampleState.historyIndex.toNat]? = some sampleSnapshot ∧
    ((undo (saveTimerFire (setEdges sampleSnapshotB.edges
        (setNodes sampleSnapshotB.nodes sampleState)))).graph = sampleSnapshot ∧
     (redo (undo (saveTimerFire (setEdges sampleSnapshotB.edges
        (setNodes sampleSnapshotB.nodes sampleState))))).graph = sampleSnapshotB) :=
  ⟨rfl, by decide, rfl,
   history_round_trip sampleState sampleSnapshot sampleSnapshotB rfl (by decide) rfl⟩

/-- A state with no pending save is a fixed point of the debounce timer. -/
theorem saveTimerFire_of_not_pending {s : HistoryState} (h : s.pendingSave = false) :
    saveTimerFire s = s := by
  unfold saveTimerFire
  rw [h]
  simp

/-- C2. Restoration never checkpoints: `undo` and `redo` leave the
snapshot sequence untouched and schedule no debounced save, so when no
save was already pending before the restore, no timer fires afterwards
and the sequence stays exactly as it was (only the cursor moved). -/
theorem restoration_never_checkpoints (s : HistoryState)
    (hp : s.pendingSave = false) :
    (undo s).history = s.history ∧ (redo s).history = s.history ∧
    (undo s).pendingSave = false ∧ (redo s).pendingSave = false ∧
    saveTimerFire (undo s) = undo s ∧ saveTimerFire (redo s) = redo s := by
  have hu : (undo s).pendingSave = false := by
    unfold undo; split <;> exact hp
  have hr : (redo s).pendingSave = false := by
    unfold redo; split <;> exact hp
  exact ⟨by unfold undo; split <;> rfl, by unfold redo; split <;> rfl,
    hu, hr, saveTimerFire_of_not_pending hu, saveTimerFire_of_not_pending hr⟩

/-- C2 witness: the property evaluated at the initialized default state. -/
theorem restoration_never_checkpoints_witness :
    (undo sampleState).history = sampleState.history ∧
    (redo sampleState).history = sampleState.history ∧
    (undo sampleState).pendingSave = false ∧
    (redo sampleState).pendingSave = false ∧
    saveTimerFire (undo sampleState) = undo sampleState ∧
    saveTimerFire (redo sampleState) = redo sampleState :=
  restoration_never_checkpoints sampleState rfl

/-- The initialized default state is reachable. -/
theorem sampleState_reachable : Reachable sampleState :=
  Reachable.init (Reachable.start sampleSnapshot)

/-- C3. Undo/redo bounds: in every reachable state, `undo()` at cursor 0
is a no-op with `canUndo = false`, and `redo()` at the last index is a
no-op with `canRedo = false`. -/
theorem undo_redo_bounds (s : HistoryState) (hs : Reachable s) :
    (s.historyIndex = 0 → undo s = s ∧ s.canUndo = false) ∧
    (s.historyIndex = (s.history.length : Int) - 1 →
      redo s = s ∧ s.canRedo = false) := by
  obtain ⟨h1, h2, h3, h4, h5, h6, h7⟩ := history_invariant hs
  constructor
  · intro h0
    refine ⟨?_, ?_⟩
    · unfold undo; rw [if_neg (by omega)]
    · rw [h5, h0]; rfl
  · intro hl
    refine ⟨?_, ?_⟩
    · unfold redo; rw [if_neg (by omega)]
    · rw [h6, hl]; simp

/-- C3 witness: the initialized default state has cursor 0 which is also
the last index, so both bounds apply to it. -/
theorem undo_redo_bounds_witness :
    (undo sampleState = sampleState ∧ sampleState.canUndo = false) ∧
    (redo sampleState = sampleState ∧ sampleState.canRedo = false) :=
  ⟨(undo_redo_bounds sampleState sampleState_reachable).1 (by decide),
   (undo_redo_bounds sampleState sampleState_reachable).2 (by decide)⟩

/-- C4. Redo truncation: once the next checkpoint after an undo fires,
every snapshot strictly after the cursor has been discarded — whatever
remains is either from the preserved prefix or the newly captured graph —
the cursor is at the new last index, `canRedo` is false and `redo()` is
a no-op, so the discarded branch cannot be restored. -/
theorem redo_truncation (s : HistoryState) (hR : s.isRestoring = false) :
    (saveTimerFire (saveToHistory s)).canRedo = false ∧
    redo (saveTimerFire (saveToHistory s)) = saveTimerFire (saveToHistory s) ∧
    ∀ t ∈ (saveTimerFire (saveToHistory s)).history,
      t ∈ s.history.take (s.historyIndex + 1).toNat ∨ t = s.graph := by
  have hsv : saveToHistory s = { s with pendingSave := true } := by
    unfold saveToHistory; rw [hR]; rfl
  rw [hsv]
  unfold saveTimerFire
  dsimp only
  rw [if_pos rfl]
  split
  case isTrue hb =>
    refine ⟨rfl, ?_, ?_⟩
    · unfold redo
      rw [if_neg (by
        dsimp only
        simp only [List.length_drop, List.length_append, List.length_singleton]
        omega)]
    · intro t ht
      dsimp only at ht
      rcases List.mem_append.mp (List.drop_subset _ _ ht) with h | h
      · exact Or.inl h
      · exact Or.inr (List.mem_singleton.mp h)
  case isFalse hb =>
    refine ⟨rfl, ?_, ?_⟩
    · unfold redo
      rw [if_neg (by
        dsimp only
        simp only [List.length_append, List.length_singleton]
        omega)]
    · intro t ht
      dsimp only at ht
      rcases List.mem_append.mp ht with h | h
      · exact Or.inl h
      · exact Or.inr (List.mem_singleton.mp h)

/-- C4 witness: the truncation property evaluated right after an undo at
a three-deep history. -/
theorem redo_truncation_witness :
    (undo sampleState).isRestoring = false ∧
    ((saveTimerFire (saveToHistory (undo sampleState))).canRedo = false ∧
     redo (saveTimerFire (saveToHistory (undo sampleState))) =
       saveTimerFire (saveToHistory (undo sampleState)) ∧
     ∀ t ∈ (saveTimerFire (saveToHistory (undo sampleState))).history,
       t ∈ (undo sampleState).history.take
             ((undo sampleState).historyIndex + 1).toNat ∨
       t = (undo sampleState).graph) :=
  ⟨rfl, redo_truncation (undo sampleState) rfl⟩

/-- C5. Bounded history: every reachable state keeps at most
`maxHistorySize` snapshots, the cursor is a valid index into the sequence
(`-1` only while the history is still empty), and when a firing
checkpoint would exceed the bound the oldest snapshot is evicted and the
cursor decremented by one. -/
theorem bounded_history (s : HistoryState) (hs : Reachable s) :
    s.history.length ≤ maxHistorySize ∧
    -1 ≤ s.historyIndex ∧ s.historyIndex < (s.history.length : Int) ∧
    (s.historyIndex = -1 → s.history = []) ∧
    (s.pendingSave = true →
      (s.history.take (s.historyIndex + 1).toNat ++ [s.graph]).length >
        maxHistorySize →
      (saveTimerFire s).history =
        (s.history.take (s.historyIndex + 1).toNat ++ [s.graph]).drop 1 ∧
      (saveTimerFire s).historyIndex =
        ((s.history.take (s.historyIndex + 1).toNat ++ [s.graph]).length : Int)
          - 1 - 1) := by
  obtain ⟨h1, h2, h3, h4, h5, h6, h7⟩ := history_invariant hs
  refine ⟨h1, h2, h3, h4, ?_⟩
  intro hp hover
  unfold saveTimerFire
  rw [if_pos hp, if_pos hover]
  exact ⟨rfl, rfl⟩

/-- C5 witness: the bound statement evaluated at the initialized default
state. -/
theorem bounded_history_witness :
    sampleState.history.length ≤ maxHistorySize ∧
    -1 ≤ sampleState.historyIndex ∧
    sampleState.historyIndex < (sampleState.history.length : Int) ∧
    (sampleState.historyIndex = -1 → sampleState.history = []) ∧
    (sampleState.pendingSave = true →
      (sampleState.history.take (sampleState.historyIndex + 1).toNat ++
        [sampleState.graph]).length > maxHistorySize →
      (saveTimerFire sampleState).history =
        (sampleState.history.take (sampleState.historyIndex + 1).toNat ++
          [sampleState.graph]).drop 1 ∧
      (saveTimerFire sampleState).historyIndex =
        ((sampleState.history.take (sampleState.historyIndex + 1).toNat ++
          [sampleState.graph]).length : Int) - 1 - 1) :=
  bounded_history sampleState sampleState_reachable

/-- C6 counterexample: a batch containing an `add` change does NOT capture
a history checkpoint immediately — right after
`handleNodesChangeWithHistory` returns, the snapshot sequence is exactly
what it was (one snapshot), with only a debounced save pending. -/
theorem immediate_checkpoint_counterexample :
    (handleNodesChangeWithHistory [NodeChange.add sampleTextNode]
        sampleState).history = sampleState.history ∧
    sampleState.history.length = 1 ∧
    (handleNodesChangeWithHistory [NodeChange.add sampleTextNode]
        sampleState).history.length = 1 ∧
    (handleNodesChangeWithHistory [NodeChange.add sampleTextNode]
        sampleState).pendingSave = true := by
  refine ⟨rfl, rfl, rfl, rfl⟩

/-- C6 (amended). Significant batches schedule a debounced checkpoint:
a batch of node or edge changes containing an add/remove/replace leaves a
save pending (captured only when the debounce timer fires) without
touching the snapshot sequence; purely cosmetic batches schedule nothing;
scheduling is idempotent, and one timer fire appends at most one
snapshot — so a rapid burst of changes yields at most one history entry. -/
theorem debounced_checkpoint_behavior (s : HistoryState)
    (ncs : List NodeChange) (ecs : List EdgeChange)
    (hR : s.isRestoring = false) :
    (ncs.any NodeChange.isSignificant = true →
      (handleNodesChangeWithHistory ncs s).pendingSave = true ∧
      (handleNodesChangeWithHistory ncs s).history = s.history) ∧
    (ncs.any NodeChange.isSignificant = false →
      (handleNodesChangeWithHistory ncs s).pendingSave = s.pendingSave ∧
      (handleNodesChangeWithHistory ncs s).history = s.history) ∧
    (ecs.any EdgeChange.isSignificant = true →
      (handleEdgesChangeWithHistory ecs s).pendingSave = true ∧
      (handleEdgesChangeWithHistory ecs s).history = s.history) ∧
    (ecs.any EdgeChange.isSignificant = false →
      (handleEdgesChangeWithHistory ecs s).pendingSave = s.pendingSave ∧
      (handleEdgesChangeWithHistory ecs s).history = s.history) ∧
    saveToHistory (saveToHistory s) = saveToHistory s ∧
    (saveTimerFire (saveToHistory s)).history.length ≤ s.history.length + 1 := by
  have hsv : saveToHistory s = { s with pendingSave := true } := by
    unfold saveToHistory; rw [hR]; rfl
  have hTle : (s.history.take (s.historyIndex + 1).toNat).length ≤ s.history.length := by
    rw [List.length_take]; omega
  refine ⟨?_, ?_, ?_, ?_, ?_, ?_⟩
  · intro hsig
    unfold handleNodesChangeWithHistory handleNodesChange
    rw [hsig, if_pos rfl, hsv]
    exact ⟨rfl, rfl⟩
  · intro hsig
    unfold handleNodesChangeWithHistory handleNodesChange
    rw [hsig]
    exact ⟨rfl, rfl⟩
  · intro hsig
    unfold handleEdgesChangeWithHistory handleEdgesChange
    rw [hsig, if_pos rfl, hsv]
    exact ⟨rfl, rfl⟩
  · intro hsig
    unfold handleEdgesChangeWithHistory handleEdgesChange
    rw [hsig]
    exact ⟨rfl, rfl⟩
  · rw [hsv]
    unfold saveToHistory
    rw [hR]
    rfl
  · rw [hsv]
    unfold saveTimerFire
    dsimp only
    rw [if_pos rfl]
    split
    · dsimp only
      simp only [List.length_drop, List.length_append, List.length_singleton]
      omega
    · dsimp only
      simp only [List.length_append, List.length_singleton]
      omega

/-- C6 witness: the amended behavior evaluated at the default state with
an `add` batch and a cosmetic edge batch. -/
theorem debounced_checkpoint_behavior_witness :
    (([NodeChange.add sampleTextNode].any NodeChange.isSignificant) = true →
      (handleNodesChangeWithHistory [NodeChange.add sampleTextNode]
          sampleState).pendingSave = true ∧
      (handleNodesChangeWithHistory [NodeChange.add sampleTextNode]
          sampleState).history = sampleState.history) ∧
    (([NodeChange.add sampleTextNode].any NodeChange.isSignificant) = false →
      (handleNodesChangeWithHistory [NodeChange.add sampleTextNode]
          sampleState).pendingSave = sampleState.pendingSave ∧
      (handleNodesChangeWithHistory [NodeChange.add sampleTextNode]
          sampleState).history = sampleState.history) ∧
    (([EdgeChange.select "edge-1" true].any EdgeChange.isSignificant) = true →
      (handleEdgesChangeWithHistory [EdgeChange.select "edge-1" true]
          sampleState).pendingSave = true ∧
      (handleEdgesChangeWithHistory [EdgeChange.select "edge-1" true]
          sampleState).history = sampleState.history) ∧
    (([EdgeChange.select "edge-1" true].any EdgeChange.isSignificant) = false →
      (handleEdgesChangeWithHistory [EdgeChange.select "edge-1" true]
          sampleState).pendingSave = sampleState.pendingSave ∧
      (handleEdgesChangeWithHistory [EdgeChange.select "edge-1" true]
          sampleState).history = sampleState.history) ∧
    saveToHistory (saveToHistory sampleState) = saveToHistory sampleState ∧
    (saveTimerFire (saveToHistory sampleState)).history.length ≤
      sampleState.history.length + 1 :=
  debounced_checkpoint_behavior sampleState
    [NodeChange.add sampleTextNode] [EdgeChange.select "edge-1" true] rfl

/-- Kept and dropped entries of a filter partition the list. -/
theorem filter_countP_not_length {α : Type} (p : α → Bool) (l : List α) :
    (l.filter p).length + l.countP (fun a => !(p a)) = l.length := by
  induction l with
  | nil => rfl
  | cons a t ih =>
    by_cases h : p a <;> simp [List.filter_cons, List.countP_cons, h] <;> omega

/-- C7. Import edge filtering: a document whose nodes and edges are arrays
is imported keeping exactly the edges whose source and target are both
among the imported node ids; every other edge is dropped and counted; node
types are defaulted, never rejected. In particular, for nodes `[a, b]` and
edges `[a->b, a->missing]`, exactly `a->b` is kept and one skipped edge is
reported. -/
theorem import_edge_filtering (ns : List Node) (es : List Edge) (st : Snapshot) :
    ((sidebarImport ns es).2.1.length + (sidebarImport ns es).2.2 = es.length) ∧
    (∀ e ∈ (sidebarImport ns es).2.1,
        e.source ∈ ns.map (fun n => n.id) ∧ e.target ∈ ns.map (fun n => n.id)) ∧
    (∀ e ∈ es, e.source ∈ ns.map (fun n => n.id) →
        e.target ∈ ns.map (fun n => n.id) →
        ({ id := e.id, source := e.source, target := e.target,
           sourceHandle := none, targetHandle := none,
           type := some (jsOrString e.type "deletable") : Edge }
          ∈ (sidebarImport ns es).2.1)) ∧
    (∀ n ∈ (sidebarImport ns es).1, n.type ≠ none) ∧
    ((sidebarImport [importNodeA, importNodeB]
        [importEdgeAB, importEdgeAMissing]).2.1 =
      [{ id := "e1", source := "a", target := "b", sourceHandle := none,
         targetHandle := none, type := some "deletable" }]) ∧
    ((sidebarImport [importNodeA, importNodeB]
        [importEdgeAB, importEdgeAMissing]).2.2 = 1) ∧
    ((sidebarHandleUpload (.parsed (some [importNodeA, importNodeB])
        (some [importEdgeAB, importEdgeAMissing])) st).2 =
      [.skippedEdges 1]) := by
  refine ⟨?_, ?_, ?_, ?_, by decide, by decide, rfl⟩
  · dsimp only [sidebarImport]
    have h := filter_countP_not_length
      (fun e : Edge => (ns.map fun n => n.id).contains e.source &&
        (ns.map fun n => n.id).contains e.target)
      (es.map fun e =>
        { id := e.id, source := e.source, target := e.target,
          sourceHandle := none, targetHandle := none,
          type := some (jsOrString e.type "deletable") : Edge })
    rw [List.length_map] at h
    exact h
  · intro e he
    dsimp only [sidebarImport] at he
    rw [List.mem_filter] at he
    obtain ⟨-, hp⟩ := he
    rw [Bool.and_eq_true] at hp
    obtain ⟨h1, h2⟩ := hp
    exact ⟨by simpa using h1, by simpa using h2⟩
  · intro e he h1 h2
    dsimp only [sidebarImport]
    rw [List.mem_filter]
    refine ⟨List.mem_map_of_mem _ he, ?_⟩
    rw [Bool.and_eq_true]
    exact ⟨by simpa using h1, by simpa using h2⟩
  · intro n hn
    dsimp only [sidebarImport] at hn
    obtain ⟨n0, -, rfl⟩ := List.mem_map.mp hn
    simp

/-- C7 witness: the filtering properties evaluated at the spec's example
document. -/
theorem import_edge_filtering_witness :
    ((sidebarImport [importNodeA, importNodeB]
        [importEdgeAB, importEdgeAMissing]).2.1.length +
      (sidebarImport [importNodeA, importNodeB]
        [importEdgeAB, importEdgeAMissing]).2.2 =
      ([importEdgeAB, importEdgeAMissing] : List Edge).length) ∧
    (∀ e ∈ (sidebarImport [importNodeA, importNodeB]
        [importEdgeAB, importEdgeAMissing]).2.1,
        e.source ∈ ([importNodeA, importNodeB] : List Node).map (fun n => n.id) ∧
        e.target ∈ ([importNodeA, importNodeB] : List Node).map (fun n => n.id)) ∧
    (∀ e ∈ ([importEdgeAB, importEdgeAMissing] : List Edge),
        e.source ∈ ([importNodeA, importNodeB] : List Node).map (fun n => n.id) →
        e.target ∈ ([importNodeA, importNodeB] : List Node).map (fun n => n.id) →
        ({ id := e.id, source := e.source, target := e.target,
           sourceHandle := none, targetHandle := none,
           type := some (jsOrString e.type "deletable") : Edge }
          ∈ (sidebarImport [importNodeA, importNodeB]
              [importEdgeAB, importEdgeAMissing]).2.1)) ∧
    (∀ n ∈ (sidebarImport [importNodeA, importNodeB]
        [importEdgeAB, importEdgeAMissing]).1, n.type ≠ none) ∧
    ((sidebarImport [importNodeA, importNodeB]
        [importEdgeAB, importEdgeAMissing]).2.1 =
      [{ id := "e1", source := "a", target := "b", sourceHandle := none,
         targetHandle := none, type := some "deletable" }]) ∧
    ((sidebarImport [importNodeA, importNodeB]
        [importEdgeAB, importEdgeAMissing]).2.2 = 1) ∧
    ((sidebarHandleUpload (.parsed (some [importNodeA, importNodeB])
        (some [importEdgeAB, importEdgeAMissing])) ⟨[], []⟩).2 =
      [.skippedEdges 1]) :=
  import_edge_filtering [importNodeA, importNodeB]
    [importEdgeAB, importEdgeAMissing] ⟨[], []⟩

/-- C8. Atomic rejection of malformed import: a parse failure, or a
`nodes`/`edges` field that is not an array, rejects the whole document
and leaves the graph store's nodes and edges untouched, in both the
sidebar and the navigation-bar upload handlers. -/
theorem atomic_import_rejection (st : Snapshot) (nodes : Option (List Node))
    (edges : Option (List Edge)) (h : nodes = none ∨ edges = none) :
    (sidebarHandleUpload .parseError st).1 = st ∧
    (sidebarHandleUpload (.parsed nodes edges) st).1 = st ∧
    (navHandleUpload .parseError st).1 = st ∧
    (navHandleUpload (.parsed nodes edges) st).1 = st := by
  refine ⟨rfl, ?_, rfl, ?_⟩ <;>
  · rcases h with h | h
    · subst h; cases edges <;> rfl
    · subst h; cases nodes <;> rfl

/-- C8 witness: a document whose `edges` field is not an array is fully
rejected by both handlers. -/
theorem atomic_import_rejection_witness :
    ((some [importNodeA] : Option (List Node)) = none ∨
      (none : Option (List Edge)) = none) ∧
    ((sidebarHandleUpload .parseError sampleSnapshot).1 = sampleSnapshot ∧
     (sidebarHandleUpload (.parsed (some [importNodeA]) none)
        sampleSnapshot).1 = sampleSnapshot ∧
     (navHandleUpload .parseError sampleSnapshot).1 = sampleSnapshot ∧
     (navHandleUpload (.parsed (some [importNodeA]) none)
        sampleSnapshot).1 = sampleSnapshot) :=
  ⟨Or.inr rfl,
   atomic_import_rejection sampleSnapshot (some [importNodeA]) none (Or.inr rfl)⟩

/-- C9. Origin noninterference: a window message from an origin outside
the allow-list leaves the editor's nodes and edges unchanged and posts no
reply — it is discarded, never acted upon; hence graph replacement and
the `dataLoaded` response can only happen for allow-listed origins. -/
theorem origin_noninterference (origin : String) (data : Option MessageData)
    (st : Snapshot) (h : allowedOrigins.contains origin = false) :
    handleMessage origin data st = (st, []) := by
  unfold handleMessage
  rw [h]
  rfl

/-- C9 witness: a `loadData` message from an unknown origin is discarded
even though its payload is well-formed. -/
theorem origin_noninterference_witness :
    allowedOrigins.contains "https://evil.example" = false ∧
    handleMessage "https://evil.example"
      (some ⟨"loadData", .ok (some [sampleTextNode]) (some [])⟩)
      sampleSnapshot = (sampleSnapshot, []) :=
  ⟨by decide,
   origin_noninterference "https://evil.example"
     (some ⟨"loadData", .ok (some [sampleTextNode]) (some [])⟩)
     sampleSnapshot (by decide)⟩

/-- C10. Path-removal edge cascade: removing a path removes, in the same
operation, exactly the edges whose `sourceHandle` equals the removed
path's id; every other edge (including edges with no `sourceHandle`)
survives, the path itself is gone, and no remaining edge is attached to
the deleted path's handle. -/
theorem path_removal_edge_cascade (pathId : String)
    (data : ConditionalPathData) (edges : List Edge) :
    (∀ e, e ∈ (handleRemovePath pathId data edges).2 ↔
        (e ∈ edges ∧ e.sourceHandle ≠ some pathId)) ∧
    (∀ p, p ∈ (handleRemovePath pathId data edges).1.paths ↔
        (p ∈ data.paths ∧ p.id ≠ pathId)) ∧
    (∀ e ∈ (handleRemovePath pathId data edges).2,
        e.sourceHandle ≠ some pathId) := by
  refine ⟨?_, ?_, ?_⟩
  · intro e
    unfold handleRemovePath
    dsimp only
    rw [List.mem_filter, bne_iff_ne]
  · intro p
    unfold handleRemovePath
    dsimp only
    rw [List.mem_filter, bne_iff_ne]
  · intro e he
    unfold handleRemovePath at he
    dsimp only at he
    rw [List.mem_filter, bne_iff_ne] at he
    exact he.2

/-- C10 witness: removing path `p1` drops exactly the edge attached to
handle `p1` and the path itself, keeping path `p2` and its edge. -/
theorem path_removal_edge_cascade_witness :
    (∀ e, e ∈ (handleRemovePath "p1" sampleCondData [edgeFromP1, edgeFromP2]).2 ↔
        (e ∈ [edgeFromP1, edgeFromP2] ∧ e.sourceHandle ≠ some "p1")) ∧
    (∀ p, p ∈ (handleRemovePath "p1" sampleCondData
        [edgeFromP1, edgeFromP2]).1.paths ↔
        (p ∈ sampleCondData.paths ∧ p.id ≠ "p1")) ∧
    (∀ e ∈ (handleRemovePath "p1" sampleCondData [edgeFromP1, edgeFromP2]).2,
        e.sourceHandle ≠ some "p1") :=
  path_removal_edge_cascade "p1" sampleCondData [edgeFromP1, edgeFromP2]

end ChatbotBuilder
